import Mathlib

/-!
Verification of the elimage content-addressed image store (src/main.py)
against its natural-language specification.

The Python source is shallowly embedded below:
* pure string manipulation becomes Lean functions on `String` / `List Char`;
* `hashlib.sha1(...).hexdigest()` is embedded as a full executable SHA-1
  over byte lists (`sha1Hex`), machine words as `Nat` mod `2 ^ 32`;
* the filesystem is an explicit association list from paths to byte lists;
* the external `file` and `dwebp` subprocesses are black-box oracles passed
  as parameters; their observable interface (parsed tokens, exit status,
  bytes left at the output path) is made explicit.
-/

set_option maxRecDepth 4000

namespace Elimage

/-! ## String helpers mirroring Python primitives -/

/-- Python `needle == hay[:len(needle)]`: `needle` begins `hay`. -/
def listStarts : List Char → List Char → Bool
  | [], _ => true
  | _ :: _, [] => false
  | n :: ns, h :: hs => n == h && listStarts ns hs

/-- Python `needle in hay` on strings: substring containment. -/
def listHasSub (n : List Char) : List Char → Bool
  | [] => listStarts n []
  | h :: hs => listStarts n (h :: hs) || listHasSub n hs

/-- Python `needle in hay` lifted to `String`. -/
def strHasSub (needle hay : String) : Bool :=
  listHasSub needle.data hay.data

/-- Python `str.lower()` (ASCII-relevant part, via `Char.toLower`). -/
def strLower (s : String) : String :=
  ⟨s.data.map Char.toLower⟩

/-- Python `str.rstrip(c)`: drop trailing copies of `c`. -/
def rstripChar (c : Char) (s : String) : String :=
  ⟨(s.data.reverse.dropWhile (· == c)).reverse⟩

/-- Python `s.split(sep)[-1]`: the part of `s` after the last `sep`. -/
def afterLastChar (sep : Char) (s : String) : String :=
  ⟨(s.data.reverse.takeWhile (· != sep)).reverse⟩

/-- Characters of `p` strictly before the first `sep` (`p.split(sep, 1)[0]`). -/
def beforeFirstChar (sep : Char) : List Char → List Char
  | [] => []
  | c :: cs => if c == sep then [] else c :: beforeFirstChar sep cs

/-- Characters of `p` strictly after the first `sep` (`p.split(sep, 1)[1]`). -/
def afterFirstChar (sep : Char) : List Char → List Char
  | [] => []
  | c :: cs => if c == sep then cs else afterFirstChar sep cs

/-! ## SHA-1 (`hashlib.sha1(body).hexdigest()`)

Executable embedding over `Nat`, words reduced mod `2 ^ 32`. -/

/-- 32-bit left rotation of `x` (assumed `< 2 ^ 32`) by `s`. -/
def rotl32 (x s : Nat) : Nat :=
  (((x <<< s) % 4294967296) ||| (x >>> (32 - s)))

/-- Big-endian byte rendering of `n` on `k` bytes. -/
def beBytes : Nat → Nat → List Nat
  | 0, _ => []
  | k + 1, n => beBytes k (n / 256) ++ [n % 256]

/-- SHA-1 message padding for a message of `len` bytes:
`0x80`, zero bytes to 56 mod 64, then the bit length on 8 big-endian bytes. -/
def sha1Padding (len : Nat) : List Nat :=
  128 :: List.replicate ((119 - len % 64) % 64) 0 ++ beBytes 8 (len * 8)

/-- Group bytes four at a time into big-endian 32-bit words. -/
def bytesToWords : List Nat → List Nat
  | a :: b :: c :: d :: rest => (((a * 256 + b) * 256 + c) * 256 + d) :: bytesToWords rest
  | _ => []

/-- Split a byte list into 64-byte blocks (fuel-based so the kernel reduces it;
`fuel ≥ l.length` suffices since every step consumes 64 bytes). -/
def chunks64Fuel : Nat → List Nat → List (List Nat)
  | 0, _ => []
  | _, [] => []
  | fuel + 1, x :: xs => ((x :: xs).take 64) :: chunks64Fuel fuel ((x :: xs).drop 64)

/-- Split a byte list into 64-byte blocks. -/
def chunks64 (l : List Nat) : List (List Nat) :=
  chunks64Fuel l.length l

/-- Extend the 16 message words to 80 schedule words. -/
def sha1Expand (ws : List Nat) : Nat → List Nat
  | 0 => ws
  | n + 1 =>
    let t := ws.length
    let w := rotl32 ((ws.getD (t - 3) 0) ^^^ (ws.getD (t - 8) 0) ^^^
                     (ws.getD (t - 14) 0) ^^^ (ws.getD (t - 16) 0)) 1
    sha1Expand (ws ++ [w]) n

/-- SHA-1 round function `f_t`. -/
def sha1F (t b c d : Nat) : Nat :=
  if t < 20 then (b &&& c) ||| ((b ^^^ 4294967295) &&& d)
  else if t < 40 then b ^^^ c ^^^ d
  else if t < 60 then (b &&& c) ||| (b &&& d) ||| (c &&& d)
  else b ^^^ c ^^^ d

/-- SHA-1 round constant `K_t`. -/
def sha1K (t : Nat) : Nat :=
  if t < 20 then 1518500249
  else if t < 40 then 1859775393
  else if t < 60 then 2400959708
  else 3395469782

/-- One SHA-1 compression round. -/
def sha1Round (W : List Nat) (st : Nat × Nat × Nat × Nat × Nat) (t : Nat) :
    Nat × Nat × Nat × Nat × Nat :=
  let (a, b, c, d, e) := st
  let tmp := (rotl32 a 5 + sha1F t b c d + e + sha1K t + W.getD t 0) % 4294967296
  (tmp, a, rotl32 b 30, c, d)

/-- Compress one 64-byte block into the running state. -/
def sha1Block (st : Nat × Nat × Nat × Nat × Nat) (block : List Nat) :
    Nat × Nat × Nat × Nat × Nat :=
  let W := sha1Expand (bytesToWords block) 64
  let (a, b, c, d, e) := (List.range 80).foldl (sha1Round W) st
  let (h0, h1, h2, h3, h4) := st
  ((h0 + a) % 4294967296, (h1 + b) % 4294967296, (h2 + c) % 4294967296,
   (h3 + d) % 4294967296, (h4 + e) % 4294967296)

/-- One lowercase hex digit. -/
def hexDigit (n : Nat) : Char :=
  if n < 10 then Char.ofNat (48 + n) else Char.ofNat (87 + n)

/-- A 32-bit word as 8 lowercase hex characters. -/
def toHex8 (n : Nat) : String :=
  ⟨(List.range 8).map fun i => hexDigit ((n >>> (28 - 4 * i)) % 16)⟩

/-- Embedding of `hashlib.sha1(msg).hexdigest()`: 40 lowercase hex characters. -/
def sha1Hex (msg : List Nat) : String :=
  let padded := msg ++ sha1Padding msg.length
  let (h0, h1, h2, h3, h4) :=
    (chunks64 padded).foldl sha1Block
      (1732584193, 4023233417, 2562383102, 271733878, 3285377520)
  toHex8 h0 ++ toHex8 h1 ++ toHex8 h2 ++ toHex8 h3 ++ toHex8 h4

/-- Sanity anchor: SHA-1 of the empty message matches the published vector. -/
theorem sha1Hex_empty_vector :
    sha1Hex [] = "da39a3ee5e6b4b0d3255bfef95601890afd80709" := by rfl

/-- Sanity anchor: SHA-1 of "abc" matches the published vector. -/
theorem sha1Hex_abc_vector :
    sha1Hex [97, 98, 99] = "a9993e364706816aba3e25717850c26c9cd0d89d" := by rfl

/-! ## TypeSniffer: `guess_mime_using_file` and `guess_extension`

The `file` subprocess is a black-box oracle.  Since every stored file is
immutable and `guess_mime_using_file` is keyed on the path (`lru_cache`),
the oracle is modelled as a function of the stored bytes.  Its observable
interface is the parsed tokens the Python code consumes: the second and
third whitespace tokens of `file -i` output, and the description part of
plain `file` output (everything after the first whitespace). -/

/-- Observable output of the `file` command on one stored object. -/
structure FileOracle where
  mimeTok : String
  encTok : String
  desc : String
deriving Repr, DecidableEq

/-- Result of `guess_mime_using_file`, plus whether the plain-description
mode (`file` without `-i`) was invoked. -/
structure SniffResult where
  mime : String
  encoding : Option String
  plainInvoked : Bool
deriving Repr, DecidableEq

/-- Embedding of `guess_mime_using_file` (src/main.py lines 22-39): parse `file -i`
tokens (`mime.rstrip(';')`, `encoding.split('=')[-1]`); if the mime is
`application/octet-stream`, re-invoke `file` in plain mode and override to
`image/webp` with no encoding when the description mentions `Web/P image`;
finally discard any encoding other than `gzip`. -/
def guess_mime_using_file (oracle : List Nat → FileOracle) (content : List Nat) :
    SniffResult :=
  let r := oracle content
  let mime := rstripChar ';' r.mimeTok
  let encoding := afterLastChar '=' r.encTok
  if mime = "application/octet-stream" then
    if strHasSub "Web/P image" r.desc then
      { mime := "image/webp", encoding := none, plainInvoked := true }
    else
      { mime := mime, encoding := if encoding = "gzip" then some "gzip" else none,
        plainInvoked := true }
  else
    { mime := mime, encoding := if encoding = "gzip" then some "gzip" else none,
      plainInvoked := false }

/-- Embedding of `guess_extension` (src/main.py lines 43-51); `mext` is the stdlib
`mimetypes.guess_extension` table, a black-box oracle. -/
def guess_extension (mext : String → Option String) (ftype : String) :
    Option String :=
  if ftype = "application/octet-stream" then some ".bin"
  else if ftype = "image/webp" then some ".webp"
  else
    match mext ftype with
    | some e => if e = ".jpe" ∨ e = ".jpeg" then some ".jpg" else some e
    | none => none

/-! ## ContentStore: `IndexHandler.post` (src/main.py lines 79-131)

The filesystem is an association list from paths to byte lists; the first
binding of a path is the authoritative one (files are never overwritten).
A failed `open(fpath, 'wb')` leaves no file.  `ret` models the
`OrderedDict`: updating an existing key keeps its position, a new key is
appended at the end. -/

/-- Environment of one upload request: the external oracles and the request
URL.  `writeOk` tells whether the disk write of a given body succeeds. -/
structure Env where
  mext : String → Option String
  oracle : List Nat → FileOracle
  writeOk : List Nat → Bool
  fullUrl : String

/-- The data directory: shard directories and files beneath them. -/
structure FS where
  dirs : List String
  files : List (String × List Nat)
deriving Repr, DecidableEq

/-- State threaded through `IndexHandler.post`'s loop: the filesystem, the
`ret` ordered mapping, the HTTP status, the `model.add_image` calls made so
far (in order), and the number of disk write attempts. -/
structure UpState where
  fs : FS
  ret : List (String × String)
  status : Nat
  assoc : List (Nat × String)
  writes : Nat
deriving Repr, DecidableEq

/-- Python `OrderedDict.__setitem__`: update in place if the key exists, else
append at the end. -/
def odInsert (m : List (String × String)) (k v : String) :
    List (String × String) :=
  match m with
  | [] => [(k, v)]
  | (k', v') :: rest => if k' = k then (k, v) :: rest else (k', v') :: odInsert rest k v

/-- Python `os.mkdir` guarded by `os.path.exists` (src/main.py lines 104-105). -/
def ensureDir (dirs : List String) (d : String) : List String :=
  if dirs.contains d then dirs else dirs ++ [d]

/-- The shard path `os.path.join(d, f)` of a body's hash. -/
def pathOf (body : List Nat) : String :=
  let h := sha1Hex body
  h.take 2 ++ "/" ++ h.drop 2

/-- The extension appended to the stored name (src/main.py lines 117-122):
sniff the on-disk content, resolve the extension, keep it when truthy. -/
def extSuffix (env : Env) (content : List Nat) : String :=
  let ftype := (guess_mime_using_file env.oracle content).mime
  let ext := if ftype ≠ "" then guess_extension env.mext ftype else none
  match ext with
  | some e => if e = "" then "" else e
  | none => ""

/-- The public URL recorded for a stored file (src/main.py lines 123-124). -/
def publicUrl (env : Env) (d f : String) (content : List Nat) : String :=
  rstripChar '/' env.fullUrl ++ "/" ++ d ++ "/" ++ (f ++ extSuffix env content)

/-- The string stored into `ret` for one file: `'FAIL'` exactly when the
file is absent and its disk write fails, otherwise the public URL of the
bytes found or written at the shard path. -/
def uploadValue (env : Env) (st : UpState) (body : List Nat) : String :=
  let h := sha1Hex body
  let d := h.take 2
  let f := h.drop 2
  match st.fs.files.lookup (pathOf body) with
  | some stored => publicUrl env d f stored
  | none =>
    if env.writeOk body then publicUrl env d f body else "FAIL"

/-- One iteration of the upload loop (src/main.py lines 96-124) for the
file part `(fn, body)`:
`model.add_image` is called first (line 100), then the shard directory is
ensured, then the file is written unless it already exists; a write failure
records `FAIL` and sets status 500; otherwise the stored content is sniffed
and the public URL recorded. -/
def uploadOne (env : Env) (uid : Nat) (st : UpState) (fn : String)
    (body : List Nat) : UpState :=
  let h := sha1Hex body
  let d := h.take 2
  let f := h.drop 2
  let assoc := st.assoc ++ [(uid, h)]
  let dirs := ensureDir st.fs.dirs d
  match st.fs.files.lookup (pathOf body) with
  | some stored =>
    { fs := { dirs := dirs, files := st.fs.files },
      ret := odInsert st.ret fn (publicUrl env d f stored),
      status := st.status, assoc := assoc, writes := st.writes }
  | none =>
    if env.writeOk body then
      { fs := { dirs := dirs, files := st.fs.files ++ [(pathOf body, body)] },
        ret := odInsert st.ret fn (publicUrl env d f body),
        status := st.status, assoc := assoc, writes := st.writes + 1 }
    else
      { fs := { dirs := dirs, files := st.fs.files },
        ret := odInsert st.ret fn "FAIL",
        status := 500, assoc := assoc, writes := st.writes + 1 }

/-- The whole upload loop over the flattened file parts, in client
submission order (src/main.py lines 95-124). -/
def uploadBatch (env : Env) (uid : Nat) (files : List (String × List Nat))
    (st : UpState) : UpState :=
  files.foldl (fun s fb => uploadOne env uid s fb.1 fb.2) st

/-- The state at the start of a request: empty store, empty `ret`,
status 200, nothing recorded. -/
def initState : UpState :=
  { fs := { dirs := [], files := [] }, ret := [], status := 200, assoc := [], writes := 0 }

/-- Response rendering (src/main.py lines 126-131): `name: value` lines
when `ret` has more than one entry, the bare single value when exactly one,
nothing when empty. -/
def renderResponse (ret : List (String × String)) : String :=
  if 1 < ret.length then
    String.join (ret.map fun kv => kv.1 ++ ": " ++ kv.2 ++ "\n")
  else
    match ret with
    | [] => ""
    | kv :: _ => kv.2 ++ "\n"

/-- The per-file report of a batch: one `(filename, value)` pair per
submitted file, each value computed against the store state at the moment
that file is processed. -/
def batchReport (env : Env) (uid : Nat) (st : UpState) :
    List (String × List Nat) → List (String × String)
  | [] => []
  | (fn, b) :: rest =>
    (fn, uploadValue env st b) :: batchReport env uid (uploadOne env uid st fn b) rest

/-! ## CanonicalRedirector: `HashHandler.get` (src/main.py lines 138-150) -/

/-- Embedding of `HashHandler.get`: split on the first `.` (extension keeps its dot),
strip `/` from the candidate hash, 404 (`none`) unless exactly 40
characters remain, else redirect permanently to the sharded form. -/
def hashRedirect (p : String) : Option String :=
  let he : String × String :=
    if p.data.contains '.' then
      (⟨beforeFirstChar '.' p.data⟩, "." ++ ⟨afterFirstChar '.' p.data⟩)
    else (p, "")
  let h : String := ⟨he.1.data.filter (· != '/')⟩
  if h.length ≠ 40 then none
  else some ("/" ++ h.take 2 ++ "/" ++ h.drop 2 ++ he.2)

/-! ## NegotiationResolver: `MyStaticFileHandler.get` (src/main.py
lines 159-187)

`contentType` is `self.get_content_type()`, i.e. the monkey-patched
sniffer's mime for the stored bytes; `ext` is the second capture group of
the route (`None` or a string starting with a dot). -/

/-- What the handler serves. -/
inductive Served where
  | original : Served
  | png : Served
deriving Repr, DecidableEq

/-- The negotiation decision and whether the `Vary` header is set. -/
def negotiate (method : String) (pathEndsPng : Bool) (contentType : String)
    (accept ua : String) (ext : Option String) : Served × Bool :=
  if pathEndsPng || method != "GET" || contentType != "image/webp" then
    (.original, false)
  else if (strHasSub "image/webp" (strLower accept) || !strHasSub "Gecko" ua)
          && ext != some ".png" then
    (.original, true)
  else
    (.png, true)

/-! ## TranscodeCache: the PNG branch of `MyStaticFileHandler.get`
(src/main.py lines 182-187) with `convert_webp` (lines 53-59)

`dwebp` is a black-box oracle handed the final output path directly.
`ok` is whether it exits with status 0 (`wait_for_exit()` raises
`CalledProcessError`, hence HTTP 500, on any nonzero or signalled exit);
`out` is the PNG it produces on success; `leftover` is whatever bytes it
leaves at the output path when it fails — the Python code does no cleanup
and uses no temporary-file-plus-rename, so those bytes stay. -/

/-- One invocation of the conversion oracle. -/
structure ConvOracle where
  ok : Bool
  out : List Nat
  leftover : Option (List Nat)
deriving Repr, DecidableEq

/-- Outcome of the PNG-serving branch: resulting filesystem, number of
oracle invocations, whether the request failed with a 5xx, and the bytes
served (none when the request failed). -/
structure PngOutcome where
  fs : List (String × List Nat)
  invocations : Nat
  failed : Bool
  served : Option (List Nat)
deriving Repr, DecidableEq

/-- The PNG branch: serve `absolute_path + '.png'` if it exists (no oracle
call); else invoke the oracle once, then serve the sibling on success, or
propagate the error (HTTP 500) on failure, keeping any leftover bytes. -/
def servePng (conv : ConvOracle) (fs : List (String × List Nat)) (p : String) :
    PngOutcome :=
  let pngPath := p ++ ".png"
  match fs.lookup pngPath with
  | some b => { fs := fs, invocations := 0, failed := false, served := some b }
  | none =>
    if conv.ok then
      { fs := fs ++ [(pngPath, conv.out)], invocations := 1, failed := false,
        served := some conv.out }
    else
      match conv.leftover with
      | some b =>
        { fs := fs ++ [(pngPath, b)], invocations := 1, failed := true, served := none }
      | none => { fs := fs, invocations := 1, failed := true, served := none }

/-! ## Concrete fixtures used by witnesses and counterexamples -/

/-- A mime-to-extension table that knows nothing. -/
def mextNone : String → Option String := fun _ => none

/-- A `file` oracle that reports JPEG for everything. -/
def oracleJpeg : List Nat → FileOracle :=
  fun _ => ⟨"image/jpeg;", "charset=binary", "JPEG image data"⟩

/-- A `file` oracle reporting octet-stream whose description names WebP. -/
def oracleWebpDesc : List Nat → FileOracle :=
  fun _ => ⟨"application/octet-stream;", "charset=binary",
            "RIFF (little-endian) data, Web/P image"⟩

/-- An environment where every disk write succeeds. -/
def envOk : Env := ⟨mextNone, oracleJpeg, fun _ => true, "http://e.im/i/"⟩

/-- An environment where every disk write fails with `IOError`. -/
def envFail : Env := ⟨mextNone, oracleJpeg, fun _ => false, "http://e.im/i/"⟩

/-- An environment where exactly the body `[1]` fails to write. -/
def envFailSnd : Env := ⟨mextNone, oracleJpeg, fun b => !(b == [1]), "http://e.im/i/"⟩

/-! ## Helper lemmas -/

theorem toHex8_length (n : Nat) : (toHex8 n).length = 8 := by
  simp [toHex8, String.length]

/-- The hex digest always has exactly 40 characters. -/
theorem sha1Hex_length (msg : List Nat) : (sha1Hex msg).length = 40 := by
  unfold sha1Hex
  rcases (chunks64 (msg ++ sha1Padding msg.length)).foldl sha1Block
      (1732584193, 4023233417, 2562383102, 271733878, 3285377520) with
    ⟨h0, h1, h2, h3, h4⟩
  simp [String.length_append, toHex8_length]

theorem odInsert_lookup_self (m : List (String × String)) (k v : String) :
    (odInsert m k v).lookup k = some v := by
  induction m with
  | nil => simp [odInsert]
  | cons kv rest ih =>
    obtain ⟨k', v'⟩ := kv
    by_cases h : k' = k
    · simp [odInsert, h]
    · have hb : (k == k') = false := beq_eq_false_iff_ne.mpr (Ne.symm h)
      simp [odInsert, h, List.lookup_cons, hb, ih]

theorem odInsert_lookup_ne (m : List (String × String)) (k v k' : String)
    (h : k' ≠ k) : (odInsert m k v).lookup k' = m.lookup k' := by
  have hb : (k' == k) = false := beq_eq_false_iff_ne.mpr h
  induction m with
  | nil => simp [odInsert, List.lookup_cons, hb]
  | cons kv rest ih =>
    obtain ⟨a, b⟩ := kv
    by_cases ha : a = k
    · subst ha
      simp [odInsert, List.lookup_cons, hb]
    · cases hka : k' == a <;> simp [odInsert, ha, List.lookup_cons, hka, ih]

theorem odInsert_fresh (m : List (String × String)) (k v : String)
    (h : m.lookup k = none) : odInsert m k v = m ++ [(k, v)] := by
  induction m with
  | nil => simp [odInsert]
  | cons kv rest ih =>
    obtain ⟨a, b⟩ := kv
    rw [List.lookup_cons] at h
    by_cases ha : a = k
    · rw [show (k == a) = true from beq_iff_eq.mpr ha.symm] at h
      simp at h
    · rw [show (k == a) = false from beq_eq_false_iff_ne.mpr (Ne.symm ha)] at h
      simp only [odInsert, ha, if_false]
      simp [ih h]

theorem odInsert_map_fst (m : List (String × String)) (k v : String) :
    (odInsert m k v).map Prod.fst =
      if k ∈ m.map Prod.fst then m.map Prod.fst else m.map Prod.fst ++ [k] := by
  induction m with
  | nil => simp [odInsert]
  | cons kv rest ih =>
    obtain ⟨a, b⟩ := kv
    by_cases ha : a = k
    · subst ha; simp [odInsert]
    · by_cases hk : k ∈ rest.map Prod.fst <;>
        simp [odInsert, ha, ih, hk, Ne.symm ha]

/-! ## C1: negotiation for stored WebP objects -/

/-- C1: for a GET request on a stored object whose physical path does not
end in `.png` and whose sniffed type is `image/webp`, the original WebP is
served iff (the Accept header case-insensitively contains `image/webp`, or
the User-Agent does not contain `Gecko`) and the explicit URL extension is
not `.png`; in every other case the transcoded PNG is served, and an
explicit `.png` extension forces PNG even for a WebP-capable client. -/
theorem C1_negotiation (accept ua : String) (ext : Option String) :
    ((negotiate "GET" false "image/webp" accept ua ext).1 = .original ↔
      ((strHasSub "image/webp" (strLower accept) = true ∨
        strHasSub "Gecko" ua = false) ∧ ext ≠ some ".png"))
    ∧ ((negotiate "GET" false "image/webp" accept ua ext).1 ≠ .original →
        (negotiate "GET" false "image/webp" accept ua ext).1 = .png)
    ∧ (ext = some ".png" →
        (negotiate "GET" false "image/webp" accept ua ext).1 = .png) := by
  unfold negotiate
  by_cases h1 : strHasSub "image/webp" (strLower accept) <;>
  by_cases h2 : strHasSub "Gecko" ua <;>
  by_cases h3 : ext = some ".png" <;>
  simp [h1, h2, h3]

/-- Witness for C1 at a concrete request: Accept advertises WebP and the
URL carries no extension, so the original bytes are served; with an
explicit `.png` extension the PNG is served. -/
theorem C1_negotiation_witness :
    (negotiate "GET" false "image/webp" "text/html,image/webp" "Mozilla Gecko" none).1
      = .original
    ∧ (negotiate "GET" false "image/webp" "text/html,image/webp" "Mozilla Gecko"
        (some ".png")).1 = .png := by
  constructor
  · exact (C1_negotiation "text/html,image/webp" "Mozilla Gecko" none).1.mpr
      (by constructor
          · left; decide
          · simp)
  · exact (C1_negotiation "text/html,image/webp" "Mozilla Gecko" (some ".png")).2.2 rfl

/-! ## C5: the canonical redirector -/

theorem beforeFirstChar_eq_takeWhile (sep : Char) (l : List Char) :
    beforeFirstChar sep l = l.takeWhile (· != sep) := by
  induction l with
  | nil => rfl
  | cons c cs ih =>
    by_cases h : c = sep <;> simp [beforeFirstChar, List.takeWhile_cons, h, ih]

/-- C5: the resolver splits the raw path on the first `.` into a candidate
hash and an extension kept with its dot, strips all `/` characters from
the candidate, answers 404 (`none`) whenever the remainder is not exactly
40 characters, and otherwise permanently redirects to
a sharded target of slash, first 2 chars, slash, remaining 38 chars, then
the extension; concretely the flat `deadbeef...`.jpg path
redirects to its sharded form, and 39- or 41-character hashes give 404 —
the function is total, so no other outcome (server error) is possible. -/
theorem C5_redirector (p : String) :
    ((⟨(p.data.takeWhile (· != '.')).filter (· != '/')⟩ : String).length ≠ 40 →
      hashRedirect p = none)
    ∧ (∀ cand : String,
        cand = ⟨(p.data.takeWhile (· != '.')).filter (· != '/')⟩ →
        cand.length = 40 →
        hashRedirect p = some ("/" ++ cand.take 2 ++ "/" ++ cand.drop 2 ++
          (if p.data.contains '.' then "." ++ (⟨afterFirstChar '.' p.data⟩ : String)
           else "")))
    ∧ hashRedirect "deadbeefdeadbeefdeadbeefdeadbeefdeadbeef.jpg"
        = some "/de/adbeefdeadbeefdeadbeefdeadbeefdeadbeef.jpg"
    ∧ hashRedirect "deadbeefdeadbeefdeadbeefdeadbeefdeadbee" = none
    ∧ hashRedirect "deadbeefdeadbeefdeadbeefdeadbeefdeadbeeff" = none := by
  have hcand : ∀ q : List Char, q.contains '.' = false →
      q.takeWhile (· != '.') = q := by
    intro q hq
    have hq' : '.' ∉ q := by
      intro hm
      rw [List.contains_eq_any_beq] at hq
      have : q.any ('.' == ·) = true := List.any_eq_true.mpr ⟨'.', hm, by simp⟩
      rw [this] at hq
      cases hq
    rw [List.takeWhile_eq_self_iff]
    intro a ha
    simp only [bne_iff_ne, ne_eq]
    rintro rfl
    exact hq' ha
  refine ⟨?_, ?_, by decide, by decide, by decide⟩
  · intro hlen
    unfold hashRedirect
    by_cases hdot : p.data.contains '.'
    · simp only [hdot, if_true, beforeFirstChar_eq_takeWhile]
      exact if_pos hlen
    · have hTW := hcand p.data (by simpa using hdot)
      rw [hTW] at hlen
      simp only [hdot, Bool.false_eq_true, if_false]
      exact if_pos hlen
  · intro cand hc hlen
    subst hc
    unfold hashRedirect
    by_cases hdot : p.data.contains '.'
    · simp only [hdot, if_true, beforeFirstChar_eq_takeWhile]
      rw [if_neg (by simp [hlen])]
    · have hTW := hcand p.data (by simpa using hdot)
      rw [hTW] at hlen ⊢
      simp only [hdot, Bool.false_eq_true, if_false]
      rw [if_neg (by simp [hlen])]

/-- Witness for C5: the length-40 branch at the concrete example path. -/
theorem C5_redirector_witness :
    hashRedirect "deadbeefdeadbeefdeadbeefdeadbeefdeadbeef.jpg"
      = some "/de/adbeefdeadbeefdeadbeefdeadbeefdeadbeef.jpg" := by
  have h := (C5_redirector "deadbeefdeadbeefdeadbeefdeadbeefdeadbeef.jpg").2.1
    "deadbeefdeadbeefdeadbeefdeadbeefdeadbeef" (by decide) (by decide)
  simpa using h

/-! ## C8: the sniffer's octet-stream override and encoding policy -/

/-- C8: whenever the byte-inspection oracle reports
`application/octet-stream`, the plain-description mode is re-invoked and a
`Web/P image` description overrides the result to `image/webp` with no
encoding; and for every input, any reported encoding other than `gzip` is
discarded (the resulting encoding is always `none` or `some "gzip"`). -/
theorem C8_sniffer (oracle : List Nat → FileOracle) (content : List Nat) :
    (rstripChar ';' (oracle content).mimeTok = "application/octet-stream" →
      (guess_mime_using_file oracle content).plainInvoked = true
      ∧ (strHasSub "Web/P image" (oracle content).desc = true →
          guess_mime_using_file oracle content =
            { mime := "image/webp", encoding := none, plainInvoked := true }))
    ∧ (afterLastChar '=' (oracle content).encTok ≠ "gzip" →
        (guess_mime_using_file oracle content).encoding = none)
    ∧ ((guess_mime_using_file oracle content).encoding = none ∨
        (guess_mime_using_file oracle content).encoding = some "gzip") := by
  unfold guess_mime_using_file
  by_cases h1 : rstripChar ';' (oracle content).mimeTok = "application/octet-stream" <;>
  by_cases h2 : strHasSub "Web/P image" (oracle content).desc <;>
  by_cases h3 : afterLastChar '=' (oracle content).encTok = "gzip" <;>
  simp [h1, h2, h3]

/-- Witness for C8: a concrete octet-stream report whose description names
WebP is overridden to `image/webp` with no encoding. -/
theorem C8_sniffer_witness :
    guess_mime_using_file oracleWebpDesc [0] =
      { mime := "image/webp", encoding := none, plainInvoked := true } :=
  ((C8_sniffer oracleWebpDesc [0]).1 (by decide)).2 (by decide)

/-! ## C3 and C4: the transcode cache -/

/-- C3: if the sibling `.png` already exists it is served with no oracle
invocation (cache hit); only when it is absent is the oracle invoked
(exactly once), after which the sibling path holds and serves the
conversion output; hence two successive PNG-requiring requests for the
same object invoke the oracle at most once (the invoked conversion
succeeding). -/
theorem C3_transcode_cache (fs : List (String × List Nat)) (p : String)
    (conv1 conv2 : ConvOracle) (hok : conv1.ok = true) :
    (∀ b, fs.lookup (p ++ ".png") = some b →
      servePng conv1 fs p = ⟨fs, 0, false, some b⟩)
    ∧ (fs.lookup (p ++ ".png") = none →
        (servePng conv1 fs p).invocations = 1
        ∧ (servePng conv1 fs p).served = some conv1.out
        ∧ (servePng conv1 fs p).fs.lookup (p ++ ".png") = some conv1.out)
    ∧ (servePng conv2 (servePng conv1 fs p).fs p).invocations = 0
    ∧ (servePng conv1 fs p).invocations
        + (servePng conv2 (servePng conv1 fs p).fs p).invocations ≤ 1 := by
  cases h : fs.lookup (p ++ ".png") with
  | none =>
    have hl : (fs ++ [(p ++ ".png", conv1.out)]).lookup (p ++ ".png")
        = some conv1.out := by
      rw [List.lookup_append, h]; simp
    refine ⟨?_, ?_, ?_, ?_⟩ <;> simp [servePng, h, hok, hl]
  | some b =>
    refine ⟨?_, ?_, ?_, ?_⟩ <;> simp [servePng, h]

/-- Witness for C3: a fresh store, a succeeding oracle — the first request
invokes the oracle once, the second is a cache hit with zero invocations. -/
theorem C3_transcode_cache_witness :
    (servePng ⟨true, [9], none⟩ [] "aa/bb").invocations = 1
    ∧ (servePng ⟨true, [9], none⟩
        (servePng ⟨true, [9], none⟩ [] "aa/bb").fs "aa/bb").invocations = 0 := by
  have h := C3_transcode_cache [] "aa/bb" ⟨true, [9], none⟩ ⟨true, [9], none⟩ rfl
  exact ⟨(h.2.1 rfl).1, h.2.2.1⟩

/-- C4 counterexample: `dwebp` is handed the final output path and the code
does no cleanup, so a failing oracle that leaves bytes at that path makes
the request fail with a 5xx *and* leaves a partial `.png` observable — a
later request even serves it as a valid cached artifact, refuting the
claim's second conjunct. -/
theorem C4_counterexample :
    (servePng ⟨false, [], some [0]⟩ [] "aa/bb").failed = true
    ∧ (servePng ⟨false, [], some [0]⟩ [] "aa/bb").fs.lookup "aa/bb.png" = some [0]
    ∧ (servePng ⟨false, [], some [7]⟩
        (servePng ⟨false, [], some [0]⟩ [] "aa/bb").fs "aa/bb").served = some [0] := by
  refine ⟨rfl, by decide, by decide⟩

/-- C4 amended: if the conversion oracle exits with an error or crashes,
the triggering request does fail with a 5xx (`wait_for_exit` raises); but
no cleanup is performed, so exactly the bytes the oracle left at the
derived path (possibly a partial file) remain observable there. -/
theorem C4_transcode_failure (conv : ConvOracle) (fs : List (String × List Nat))
    (p : String) (habs : fs.lookup (p ++ ".png") = none) (hfail : conv.ok = false) :
    (servePng conv fs p).failed = true
    ∧ (servePng conv fs p).served = none
    ∧ (servePng conv fs p).fs.lookup (p ++ ".png") = conv.leftover := by
  cases hl : conv.leftover <;>
    simp [servePng, habs, hfail, hl, List.lookup_append]

/-- Witness for C4's amended statement at a concrete failing oracle. -/
theorem C4_transcode_failure_witness :
    (servePng ⟨false, [], some [2]⟩ [] "cc/dd").failed = true
    ∧ (servePng ⟨false, [], some [2]⟩ [] "cc/dd").fs.lookup "cc/dd.png" = some [2] := by
  have h := C4_transcode_failure ⟨false, [], some [2]⟩ [] "cc/dd" rfl rfl
  exact ⟨h.1, h.2.2⟩

/-! ## Structural lemmas about one upload step -/

theorem ensureDir_contains (dirs : List String) (d : String) :
    (ensureDir dirs d).contains d = true := by
  by_cases h : dirs.contains d <;> simp_all [ensureDir]

theorem ensureDir_idem (dirs : List String) (d : String) :
    ensureDir (ensureDir dirs d) d = ensureDir dirs d := by
  have h := ensureDir_contains dirs d
  revert h
  generalize ensureDir dirs d = x
  intro h
  have hm : d ∈ x := by simpa using h
  simp [ensureDir, hm]

theorem sha1Hex_drop2_length (b : List Nat) :
    ((sha1Hex b).drop 2).length = 38 := by
  have h : (sha1Hex b).data.length = 40 := sha1Hex_length b
  rw [String.drop_eq, String.length_mk, List.length_drop, h]

/-- A recorded public URL is never the string `FAIL` (it is far longer). -/
theorem publicUrl_ne_FAIL (env : Env) (d f : String) (c : List Nat)
    (hf : f.length = 38) : publicUrl env d f c ≠ "FAIL" := by
  intro h
  have h4 : (publicUrl env d f c).length = 4 := by rw [h]; rfl
  have hs : ("/" : String).length = 1 := rfl
  simp only [publicUrl, String.length_append, hs, hf] at h4
  omega

theorem uploadOne_assoc (env : Env) (uid : Nat) (st : UpState) (fn : String)
    (body : List Nat) :
    (uploadOne env uid st fn body).assoc = st.assoc ++ [(uid, sha1Hex body)] := by
  unfold uploadOne
  cases h : st.fs.files.lookup (pathOf body) <;>
    by_cases hw : env.writeOk body <;> simp [h, hw]

theorem uploadOne_ret (env : Env) (uid : Nat) (st : UpState) (fn : String)
    (body : List Nat) :
    (uploadOne env uid st fn body).ret
      = odInsert st.ret fn (uploadValue env st body) := by
  unfold uploadOne uploadValue
  cases h : st.fs.files.lookup (pathOf body) <;>
    by_cases hw : env.writeOk body <;> simp [h, hw]

theorem uploadOne_status (env : Env) (uid : Nat) (st : UpState) (fn : String)
    (body : List Nat) :
    (uploadOne env uid st fn body).status =
      if st.fs.files.lookup (pathOf body) = none ∧ env.writeOk body = false
      then 500 else st.status := by
  unfold uploadOne
  cases h : st.fs.files.lookup (pathOf body) <;>
    by_cases hw : env.writeOk body <;> simp [h, hw]

/-- The value `FAIL` is recorded for a file exactly when it was absent and its disk
write failed. -/
theorem uploadValue_eq_FAIL (env : Env) (st : UpState) (body : List Nat) :
    uploadValue env st body = "FAIL" ↔
      (st.fs.files.lookup (pathOf body) = none ∧ env.writeOk body = false) := by
  have hf := sha1Hex_drop2_length body
  unfold uploadValue
  cases h : st.fs.files.lookup (pathOf body) <;>
    by_cases hw : env.writeOk body <;>
    simp [h, hw, publicUrl_ne_FAIL env _ _ _ hf]

/-! ## C9: when the (identity, hash) association is recorded -/

/-- C9 counterexample: a file whose disk write fails is reported `FAIL`
with status 500, yet the `(identity, hash)` association **was** recorded —
`model.add_image` runs at line 100, before the write attempt — refuting
the claim that a failed write leaves no association. -/
theorem C9_counterexample :
    (uploadOne envFail 7 initState "a.png" [0]).ret.lookup "a.png" = some "FAIL"
    ∧ (uploadOne envFail 7 initState "a.png" [0]).status = 500
    ∧ (uploadOne envFail 7 initState "a.png" [0]).assoc = [(7, sha1Hex [0])] := by
  refine ⟨rfl, rfl, rfl⟩

/-- C9 amended: the `(identity, hash)` association is recorded
unconditionally for every file in the batch, *before* the write attempt —
in particular a file whose write fails still leaves the association. -/
theorem C9_assoc_before_write (env : Env) (uid : Nat)
    (files : List (String × List Nat)) (st : UpState) :
    (uploadBatch env uid files st).assoc
      = st.assoc ++ files.map (fun fb => (uid, sha1Hex fb.2)) := by
  induction files generalizing st with
  | nil => simp [uploadBatch]
  | cons fb rest ih =>
    obtain ⟨fn, b⟩ := fb
    have hstep : uploadBatch env uid ((fn, b) :: rest) st
        = uploadBatch env uid rest (uploadOne env uid st fn b) := by
      simp [uploadBatch]
    rw [hstep, ih, uploadOne_assoc]
    simp

/-! ## C10: results are keyed by client-supplied filename -/

/-- C10: two file parts sharing the filename `a` produce a single result
line (the later outcome overwrites the earlier), even though both bodies
are hashed, recorded and stored as two distinct objects. -/
theorem C10_duplicate_filenames :
    ([("a", [0]), ("a", ([1] : List Nat))].length = 2)
    ∧ (uploadBatch envOk 1 [("a", [0]), ("a", [1])] initState).ret.length = 1
    ∧ (uploadBatch envOk 1 [("a", [0]), ("a", [1])] initState).fs.files.length = 2
    ∧ (uploadBatch envOk 1 [("a", [0]), ("a", [1])] initState).assoc
        = [(1, sha1Hex [0]), (1, sha1Hex [1])]
    ∧ sha1Hex [0] ≠ sha1Hex [1] := by
  refine ⟨rfl, rfl, rfl, rfl, by decide⟩

/-! ## C2: dedup idempotence -/

/-- C2: uploading identical bytes twice (any two callers): both steps
record the same 40-character hash, the first write creates the single
physical file and the second upload changes nothing on disk, attempts no
write and keeps the status, and both `ret` entries carry the same public
path (same shard prefix/suffix and same resolved extension). -/
theorem C2_dedup (env : Env) (uid1 uid2 : Nat) (st : UpState)
    (fn1 fn2 : String) (body : List Nat)
    (habs : st.fs.files.lookup (pathOf body) = none)
    (hw : env.writeOk body = true) :
    (sha1Hex body).length = 40
    ∧ (uploadOne env uid1 st fn1 body).assoc = st.assoc ++ [(uid1, sha1Hex body)]
    ∧ (uploadOne env uid2 (uploadOne env uid1 st fn1 body) fn2 body).assoc
        = st.assoc ++ [(uid1, sha1Hex body), (uid2, sha1Hex body)]
    ∧ (uploadOne env uid1 st fn1 body).fs.files
        = st.fs.files ++ [(pathOf body, body)]
    ∧ (uploadOne env uid2 (uploadOne env uid1 st fn1 body) fn2 body).fs
        = (uploadOne env uid1 st fn1 body).fs
    ∧ (uploadOne env uid2 (uploadOne env uid1 st fn1 body) fn2 body).writes
        = (uploadOne env uid1 st fn1 body).writes
    ∧ (uploadOne env uid2 (uploadOne env uid1 st fn1 body) fn2 body).status
        = (uploadOne env uid1 st fn1 body).status
    ∧ (uploadOne env uid1 st fn1 body).status = st.status
    ∧ (uploadOne env uid1 st fn1 body).ret.lookup fn1
        = some (publicUrl env ((sha1Hex body).take 2) ((sha1Hex body).drop 2) body)
    ∧ (uploadOne env uid2 (uploadOne env uid1 st fn1 body) fn2 body).ret.lookup fn2
        = some (publicUrl env ((sha1Hex body).take 2) ((sha1Hex body).drop 2) body) := by
  have hs1 : uploadOne env uid1 st fn1 body =
      { fs := { dirs := ensureDir st.fs.dirs ((sha1Hex body).take 2),
                files := st.fs.files ++ [(pathOf body, body)] },
        ret := odInsert st.ret fn1
          (publicUrl env ((sha1Hex body).take 2) ((sha1Hex body).drop 2) body),
        status := st.status, assoc := st.assoc ++ [(uid1, sha1Hex body)],
        writes := st.writes + 1 } := by
    unfold uploadOne
    simp [habs, hw]
  have hlook2 : (st.fs.files ++ [(pathOf body, body)]).lookup (pathOf body)
      = some body := by
    rw [List.lookup_append, habs]; simp
  have hs2 : uploadOne env uid2 (uploadOne env uid1 st fn1 body) fn2 body =
      { fs := (uploadOne env uid1 st fn1 body).fs,
        ret := odInsert (uploadOne env uid1 st fn1 body).ret fn2
          (publicUrl env ((sha1Hex body).take 2) ((sha1Hex body).drop 2) body),
        status := st.status, assoc := st.assoc ++ [(uid1, sha1Hex body), (uid2, sha1Hex body)],
        writes := st.writes + 1 } := by
    rw [hs1]
    unfold uploadOne
    simp [hlook2, ensureDir_idem]
  refine ⟨sha1Hex_length body, ?_, ?_, ?_, ?_, ?_, ?_, ?_, ?_, ?_⟩
  · rw [hs1]
  · rw [hs2]
  · rw [hs1]
  · rw [hs2]
  · rw [hs2, hs1]
  · rw [hs2, hs1]
  · rw [hs1]
  · rw [hs1]; exact odInsert_lookup_self _ _ _
  · rw [hs2]; exact odInsert_lookup_self _ _ _

/-- Witness for C2 at concrete bytes `[0]` uploaded twice by two callers
into an empty store. -/
theorem C2_dedup_witness :
    (uploadOne envOk 2 (uploadOne envOk 1 initState "x" [0]) "y" [0]).fs
      = (uploadOne envOk 1 initState "x" [0]).fs
    ∧ (uploadOne envOk 2 (uploadOne envOk 1 initState "x" [0]) "y" [0]).ret.lookup "y"
      = some (publicUrl envOk ((sha1Hex [0]).take 2) ((sha1Hex [0]).drop 2) [0]) := by
  have h := C2_dedup envOk 1 2 initState "x" "y" [0] rfl rfl
  exact ⟨h.2.2.2.2.1, h.2.2.2.2.2.2.2.2.2⟩

/-! ## Batch lemmas for C6 and C7 -/

theorem uploadBatch_cons (env : Env) (uid : Nat) (fn : String) (b : List Nat)
    (rest : List (String × List Nat)) (st : UpState) :
    uploadBatch env uid ((fn, b) :: rest) st
      = uploadBatch env uid rest (uploadOne env uid st fn b) := by
  simp [uploadBatch]

theorem batchReport_length (env : Env) (uid : Nat)
    (files : List (String × List Nat)) (st : UpState) :
    (batchReport env uid st files).length = files.length := by
  induction files generalizing st with
  | nil => rfl
  | cons fb rest ih =>
    obtain ⟨fn, b⟩ := fb
    simp [batchReport, ih]

/-- With pairwise distinct filenames all fresh in `st.ret`, the final
`ret` is `st.ret` followed by one entry per file in submission order. -/
theorem uploadBatch_ret_fresh (env : Env) (uid : Nat)
    (files : List (String × List Nat)) (st : UpState)
    (hnd : (files.map Prod.fst).Nodup)
    (hfresh : ∀ fb ∈ files, st.ret.lookup fb.1 = none) :
    (uploadBatch env uid files st).ret = st.ret ++ batchReport env uid st files := by
  induction files generalizing st with
  | nil => simp [uploadBatch, batchReport]
  | cons fb rest ih =>
    obtain ⟨fn, b⟩ := fb
    rw [List.map_cons, List.nodup_cons] at hnd
    have hfn : st.ret.lookup fn = none := hfresh (fn, b) (by simp)
    have hret1 : (uploadOne env uid st fn b).ret
        = st.ret ++ [(fn, uploadValue env st b)] := by
      rw [uploadOne_ret, odInsert_fresh _ _ _ hfn]
    have hfresh' : ∀ fb ∈ rest, (uploadOne env uid st fn b).ret.lookup fb.1 = none := by
      intro fb hfb
      have hne : fb.1 ≠ fn := by
        intro he
        have hm := List.mem_map_of_mem Prod.fst hfb
        rw [he] at hm
        exact hnd.1 hm
      rw [hret1, List.lookup_append, hfresh fb (by simp [hfb])]
      simp [List.lookup_cons, beq_eq_false_iff_ne.mpr hne]
    rw [uploadBatch_cons, ih _ hnd.2 hfresh', hret1, batchReport]
    simp

/-- Entry `i` of the per-file report: that file's name paired with its
outcome against the store state reached after the first `i` files. -/
theorem batchReport_getD (env : Env) (uid : Nat)
    (files : List (String × List Nat)) (st : UpState) (i : Nat)
    (hi : i < files.length) :
    (batchReport env uid st files).getD i ("", "")
      = ((files.getD i ("", [])).1,
         uploadValue env (uploadBatch env uid (files.take i) st)
           (files.getD i ("", [])).2) := by
  induction files generalizing st i with
  | nil => exact absurd hi (by simp)
  | cons fb rest ih =>
    obtain ⟨fn, b⟩ := fb
    cases i with
    | zero => simp [batchReport, uploadBatch]
    | succ n =>
      have hn : n < rest.length := by simpa using hi
      simp only [batchReport, List.getD_cons_succ, List.take_succ_cons,
        uploadBatch_cons]
      exact ih _ _ hn

theorem uploadBatch_status_sticky (env : Env) (uid : Nat)
    (files : List (String × List Nat)) (st : UpState) (h : st.status = 500) :
    (uploadBatch env uid files st).status = 500 := by
  induction files generalizing st with
  | nil => simpa [uploadBatch] using h
  | cons fb rest ih =>
    obtain ⟨fn, b⟩ := fb
    have h1 : (uploadOne env uid st fn b).status = 500 := by
      rw [uploadOne_status]
      by_cases hc : st.fs.files.lookup (pathOf b) = none ∧ env.writeOk b = false <;>
        simp [hc, h]
    rw [uploadBatch_cons]
    exact ih _ h1

/-- If the file at position `i` hits a write failure (its outcome is
`FAIL`), the final status of the request is 500. -/
theorem uploadBatch_status_of_fail (env : Env) (uid : Nat)
    (files : List (String × List Nat)) (st : UpState) (i : Nat)
    (hi : i < files.length)
    (hf : uploadValue env (uploadBatch env uid (files.take i) st)
        (files.getD i ("", [])).2 = "FAIL") :
    (uploadBatch env uid files st).status = 500 := by
  have hsplit : files = files.take i ++ files.getD i ("", []) :: files.drop (i + 1) := by
    rw [List.getD_eq_getElem files ("", []) hi]
    rw [← List.drop_eq_getElem_cons hi]
    exact (List.take_append_drop i files).symm
  have hfold : uploadBatch env uid files st
      = uploadBatch env uid (files.getD i ("", []) :: files.drop (i + 1))
          (uploadBatch env uid (files.take i) st) := by
    conv_lhs => rw [hsplit]
    simp [uploadBatch, List.foldl_append]
  obtain ⟨hlook, hwr⟩ :=
    (uploadValue_eq_FAIL env (uploadBatch env uid (files.take i) st)
      (files.getD i ("", [])).2).mp hf
  have h500 : (uploadOne env uid (uploadBatch env uid (files.take i) st)
      (files.getD i ("", [])).1 (files.getD i ("", [])).2).status = 500 := by
    rw [uploadOne_status]
    exact if_pos ⟨hlook, hwr⟩
  rw [hfold]
  rw [show (files.getD i ("", []) : String × List Nat)
      = ((files.getD i ("", [])).1, (files.getD i ("", [])).2) from rfl,
    uploadBatch_cons]
  exact uploadBatch_status_sticky env uid _ _ h500

/-! ## C6: independent per-file failure reporting, amended -/

/-- C6 counterexample: two parts share the filename `a`; the first part's
write fails, the second succeeds. The overall status is 500, yet the
response carries a single line holding a valid URL — the failing file is
*not* reported as `FAIL` (its line was overwritten), refuting the claim
for batches with duplicate filenames. -/
theorem C6_counterexample :
    (uploadBatch envFailSnd 1 [("a", [1]), ("a", [0])] initState).status = 500
    ∧ (uploadBatch envFailSnd 1 [("a", [1]), ("a", [0])] initState).ret
        = [("a", publicUrl envFailSnd ((sha1Hex [0]).take 2) ((sha1Hex [0]).drop 2) [0])]
    ∧ publicUrl envFailSnd ((sha1Hex [0]).take 2) ((sha1Hex [0]).drop 2) [0] ≠ "FAIL" := by
  exact ⟨rfl, rfl, publicUrl_ne_FAIL _ _ _ _ (sha1Hex_drop2_length [0])⟩

/-- C6 amended: for a batch whose filenames are pairwise distinct, the
response has exactly one entry per file in submission order, an entry is
`FAIL` exactly when that file was absent and its disk write failed, every
other file is still attempted and reported with its own outcome, and any
failing file forces the overall status to 500. -/
theorem C6_batch_write_failure (env : Env) (uid : Nat)
    (files : List (String × List Nat))
    (hnd : (files.map Prod.fst).Nodup) :
    (uploadBatch env uid files initState).ret = batchReport env uid initState files
    ∧ (batchReport env uid initState files).length = files.length
    ∧ (∀ i, i < files.length →
        (batchReport env uid initState files).getD i ("", "")
          = ((files.getD i ("", [])).1,
             uploadValue env (uploadBatch env uid (files.take i) initState)
               (files.getD i ("", [])).2))
    ∧ (∀ i, i < files.length →
        (uploadValue env (uploadBatch env uid (files.take i) initState)
            (files.getD i ("", [])).2 = "FAIL" ↔
          ((uploadBatch env uid (files.take i) initState).fs.files.lookup
              (pathOf (files.getD i ("", [])).2) = none
            ∧ env.writeOk (files.getD i ("", [])).2 = false)))
    ∧ (∀ i, i < files.length →
        uploadValue env (uploadBatch env uid (files.take i) initState)
          (files.getD i ("", [])).2 = "FAIL" →
        (uploadBatch env uid files initState).status = 500) := by
  refine ⟨?_, batchReport_length env uid files initState, ?_, ?_, ?_⟩
  · have h := uploadBatch_ret_fresh env uid files initState hnd (by simp [initState])
    simpa [initState] using h
  · intro i hi
    exact batchReport_getD env uid files initState i hi
  · intro i hi
    exact uploadValue_eq_FAIL env _ _
  · intro i hi hf
    exact uploadBatch_status_of_fail env uid files initState i hi hf

/-- Witness for C6 at the spec's own example shape: three files with
distinct names, the second of which fails to write; the response is the
three-entry report, the second entry is `FAIL`, and the status is 500. -/
theorem C6_batch_write_failure_witness :
    (uploadBatch envFailSnd 1 [("a", [0]), ("b", [1]), ("c", [2])] initState).ret
      = batchReport envFailSnd 1 initState [("a", [0]), ("b", [1]), ("c", [2])]
    ∧ (batchReport envFailSnd 1 initState [("a", [0]), ("b", [1]), ("c", [2])]).length = 3
    ∧ (uploadBatch envFailSnd 1 [("a", [0]), ("b", [1]), ("c", [2])] initState).status
        = 500 := by
  have h := C6_batch_write_failure envFailSnd 1
    [("a", [0]), ("b", [1]), ("c", [2])] (by decide)
  exact ⟨h.1, h.2.1, h.2.2.2.2 1 (by decide) (by decide)⟩

/-! ## C7: response formatting, amended -/

theorem uploadBatch_keys_nodup (env : Env) (uid : Nat)
    (files : List (String × List Nat)) (st : UpState)
    (h : (st.ret.map Prod.fst).Nodup) :
    ((uploadBatch env uid files st).ret.map Prod.fst).Nodup := by
  induction files generalizing st with
  | nil => simpa [uploadBatch] using h
  | cons fb rest ih =>
    obtain ⟨fn, b⟩ := fb
    rw [uploadBatch_cons]
    apply ih
    rw [uploadOne_ret, odInsert_map_fst]
    by_cases hk : fn ∈ st.ret.map Prod.fst
    · simpa [hk] using h
    · simp [hk, List.nodup_append, h]

theorem uploadBatch_keys_mem (env : Env) (uid : Nat)
    (files : List (String × List Nat)) (st : UpState) (fn : String) :
    fn ∈ (uploadBatch env uid files st).ret.map Prod.fst ↔
      fn ∈ st.ret.map Prod.fst ∨ fn ∈ files.map Prod.fst := by
  induction files generalizing st with
  | nil => simp [uploadBatch]
  | cons fb rest ih =>
    obtain ⟨f0, b⟩ := fb
    rw [uploadBatch_cons, ih, uploadOne_ret, odInsert_map_fst]
    by_cases hk : f0 ∈ st.ret.map Prod.fst <;>
      simp only [hk, if_true, if_false, List.map_cons, List.mem_cons,
        List.mem_append, List.mem_singleton] <;>
      aesop

/-- The result map has exactly one entry per *distinct* filename. -/
theorem uploadBatch_ret_length (env : Env) (uid : Nat)
    (files : List (String × List Nat)) :
    (uploadBatch env uid files initState).ret.length
      = (files.map Prod.fst).dedup.length := by
  have h1 : ((uploadBatch env uid files initState).ret.map Prod.fst).Nodup :=
    uploadBatch_keys_nodup env uid files initState (by simp [initState])
  have h2 : ∀ fn, fn ∈ (uploadBatch env uid files initState).ret.map Prod.fst ↔
      fn ∈ files.map Prod.fst := by
    intro fn
    rw [uploadBatch_keys_mem]
    simp [initState]
  have hperm : List.Perm ((uploadBatch env uid files initState).ret.map Prod.fst)
      ((files.map Prod.fst).dedup) := by
    apply List.Subperm.antisymm
    · exact List.subperm_of_subset h1
        (fun a ha => (List.mem_dedup).mpr ((h2 a).mp ha))
    · exact List.subperm_of_subset (List.nodup_dedup _)
        (fun a ha => (h2 a).mpr ((List.mem_dedup).mp ha))
  calc (uploadBatch env uid files initState).ret.length
      = ((uploadBatch env uid files initState).ret.map Prod.fst).length := by
        rw [List.length_map]
    _ = (files.map Prod.fst).dedup.length := hperm.length_eq

/-- C7 counterexample: two submitted parts share the filename `a` and both
succeed; the response is a single bare-URL line (one newline), not two
`name: value` lines — the response is keyed by distinct filenames, not by
submitted files. -/
theorem C7_counterexample :
    ([("a", [0]), ("a", ([1] : List Nat))].length = 2)
    ∧ (uploadBatch envOk 1 [("a", [0]), ("a", [1])] initState).ret.length = 1
    ∧ renderResponse (uploadBatch envOk 1 [("a", [0]), ("a", [1])] initState).ret
        = publicUrl envOk ((sha1Hex [1]).take 2) ((sha1Hex [1]).drop 2) [1] ++ "\n"
    ∧ (renderResponse
        (uploadBatch envOk 1 [("a", [0]), ("a", [1])] initState).ret).data.count '\n'
        = 1 := by
  refine ⟨rfl, rfl, rfl, by decide⟩

/-- C7 amended: the response has one line per *distinct* filename (a later
duplicate overwrites the earlier outcome), listed in first-submission
order; the `name: value` format is used when the result map has more than
one entry, the bare single value (URL or `FAIL`) when it has exactly one,
and nothing is written when it is empty; with pairwise-distinct filenames
this is exactly one line per submitted file in submission order. -/
theorem C7_response_format (env : Env) (uid : Nat)
    (files : List (String × List Nat)) :
    ((uploadBatch env uid files initState).ret.map Prod.fst).Nodup
    ∧ (∀ fn, fn ∈ (uploadBatch env uid files initState).ret.map Prod.fst ↔
        fn ∈ files.map Prod.fst)
    ∧ (uploadBatch env uid files initState).ret.length
        = (files.map Prod.fst).dedup.length
    ∧ (1 < (uploadBatch env uid files initState).ret.length →
        renderResponse (uploadBatch env uid files initState).ret
          = String.join ((uploadBatch env uid files initState).ret.map
              fun kv => kv.1 ++ ": " ++ kv.2 ++ "\n"))
    ∧ (∀ kv, (uploadBatch env uid files initState).ret = [kv] →
        renderResponse (uploadBatch env uid files initState).ret = kv.2 ++ "\n")
    ∧ ((uploadBatch env uid files initState).ret = [] →
        renderResponse (uploadBatch env uid files initState).ret = "")
    ∧ ((files.map Prod.fst).Nodup →
        (uploadBatch env uid files initState).ret
          = batchReport env uid initState files) := by
  refine ⟨uploadBatch_keys_nodup env uid files initState (by simp [initState]),
    ?_, uploadBatch_ret_length env uid files, ?_, ?_, ?_, ?_⟩
  · intro fn
    rw [uploadBatch_keys_mem]
    simp [initState]
  · intro h
    simp [renderResponse, h]
  · intro kv hkv
    rw [hkv]
    simp [renderResponse]
  · intro h
    rw [h]
    simp [renderResponse]
  · intro hnd
    have h := uploadBatch_ret_fresh env uid files initState hnd (by simp [initState])
    simpa [initState] using h

/-- Witness for C7: two distinct filenames give the two-line
`name: value` format. -/
theorem C7_response_format_witness :
    renderResponse (uploadBatch envOk 1 [("a", [0]), ("b", [1])] initState).ret
      = String.join ((uploadBatch envOk 1 [("a", [0]), ("b", [1])] initState).ret.map
          fun kv => kv.1 ++ ": " ++ kv.2 ++ "\n") := by
  have h := C7_response_format envOk 1 [("a", [0]), ("b", [1])]
  exact h.2.2.2.1 (by decide)

end Elimage
